import Mathlib

/-!
# Verification of the rm-uploader transfer orchestration engine

Shallow embedding of the core of the `rm-uploader` repository
(`src/rm_upload/uploader.py` and the upload orchestration `_do_upload` in
`src/rm_upload/app.py`), together with proofs settling the specification
claims about it.

The embedding has three layers, each translated from the source:

* the incremental progress-stream reader of `_rsync_file` / `mirror_upload`
  (uploader.py lines 149-168 and 287-305), modelled as a fold over the list
  of chunks read from the child process's stdout;
* the sidecar JSON generators `_metadata_json` / `_content_json`
  (uploader.py lines 181-216) and the filename/extension handling
  (`UploadJob.ext`, uploader.py lines 21-23; `on_paste` validation,
  app.py lines 325-334), modelled over a small JSON syntax tree;
* the orchestration state machine `_do_upload` (app.py lines 360-432)
  together with `upload_file` / `mirror_upload` / the cleanup routines
  (uploader.py), modelled as a function from an environment describing the
  outcomes of the external steps (subprocess exits, cancellation points)
  to the trace of performed remote operations, the final outcome and the
  final `UploadJob` record.

External subprocesses (rsync, ssh) are opaque in the source; the model
therefore quantifies over their observable behaviour: the bytes a transfer
process writes to stdout, and whether each awaited step returns success,
raises an error (non-zero exit wrapped in `RuntimeError`), or is interrupted
by `asyncio.CancelledError`.
-/

namespace RmUpload

/-! ## Progress-stream reader (uploader.py `_rsync_file`, lines 149-168)

The reader loop is

```
buf = b""
while True:
    chunk = await proc.stdout.read(256)
    if not chunk: break
    buf += chunk
    lines = buf.replace(b"\x7dr", b"\x7dn").split(b"\x7dn")
    buf = lines[-1]
    for line in lines[:-1]:
        text = line.decode(errors="replace").strip()
        if not text: continue
        match = re.search(r"(\x7dd+)%", text)
        if match:
            pct = int(match.group(1))
            job.progress = pct / 100.0
            on_progress(job)
```

We model the byte stream at the character level (the tokens involved are
ASCII; `decode(errors="replace")` is the identity there).
-/

/-- Characters removed by Python's `str.strip()` (ASCII whitespace). -/
def isPySpace (c : Char) : Bool :=
  c = ' ' || c = '\t' || c = '\n' || c = '\r' || c = '\x0b' || c = '\x0c'

/-- Python `s.strip()`: drop leading and trailing whitespace. -/
def pyStrip (s : List Char) : List Char :=
  ((s.dropWhile isPySpace).reverse.dropWhile isPySpace).reverse

/-- Scanner for the leftmost match of the regular expression `(\x5cd+)%`:
walk the string keeping the value of the digit run that ends immediately
before the current position (`acc`); at the first `%` directly preceded by
at least one digit, return that run's value (the regex group is the maximal
digit run, matching Python's leftmost-then-greedy semantics). -/
def firstPctAux : Option Nat → List Char → Option Nat
  | _, [] => none
  | acc, c :: rest =>
    if c = '%' then
      match acc with
      | some v => some v
      | none => firstPctAux none rest
    else if c.isDigit then
      firstPctAux (some (acc.getD 0 * 10 + (c.toNat - 48))) rest
    else
      firstPctAux none rest

/-- First integer percentage token of a string, as in `re.search(r"(\x5cd+)%", text)`. -/
def firstPct (s : List Char) : Option Nat := firstPctAux none s

/-- Processing of one complete logical line (uploader.py lines 161-166):
strip, skip if empty, then extract the first percentage token. -/
def lineToken (line : List Char) : Option Nat :=
  let text := pyStrip line
  if text = [] then none else firstPct text

/-- Line separators: rsync overwrites its status line with `\r`, so the code
treats `\r` like `\n` (`buf.replace` + `split`). -/
def isSep (c : Char) : Bool := c = '\r' || c = '\n'

/-- Prepend `x` to the first segment of a segment list. -/
def consFst (x : List Char) : List (List Char) → List (List Char)
  | [] => [x]
  | l :: ls => (x ++ l) :: ls

/-- `buf.replace(b"\x5cr", b"\x5cn").split(b"\x5cn")`: split on CR/NL keeping
empty segments (Python `split` semantics; the result is never empty). -/
def splitSeps : List Char → List (List Char)
  | [] => [[]]
  | c :: rest => if isSep c then [] :: splitSeps rest else consFst [c] (splitSeps rest)

/-- Percentage tokens of a list of complete lines. -/
def lineTokens (parts : List (List Char)) : List Nat := parts.filterMap lineToken

/-- Reader state: the buffered incomplete trailing fragment and the
percentage tokens delivered to the progress sink so far. -/
structure RState where
  buf : List Char
  out : List Nat
deriving DecidableEq

/-- One iteration of the reader loop on a newly read chunk. -/
def stepChunk (st : RState) (chunk : List Char) : RState :=
  let parts := splitSeps (st.buf ++ chunk)
  { buf := parts.getLastD [], out := st.out ++ lineTokens parts.dropLast }

/-- The whole reader loop over the sequence of chunks returned by
`proc.stdout.read(256)`. -/
def runReader (chunks : List (List Char)) : RState :=
  chunks.foldl stepChunk ⟨[], []⟩

/-- The percentage values delivered to the progress sink, in order:
for each one the code sets `job.progress = pct / 100.0` and calls
`on_progress(job)`. -/
def deliveredPcts (chunks : List (List Char)) : List Nat := (runReader chunks).out

/-- The progress fractions delivered to the sink (`pct / 100.0`, modelled
exactly in `ℚ`). -/
def rsyncProgressValues (chunks : List (List Char)) : List ℚ :=
  (deliveredPcts chunks).map (fun p : ℕ => (p : ℚ) / 100)

/-- All progress values delivered during a *successful* device transfer
phase (`upload_file`, uploader.py lines 110-127): the initial callback with
`job.progress = 0.0` (line 111-112), the per-token callbacks from
`_rsync_file`, the callback made when entering the metadata step
(line 117-118, `job.progress` unchanged, i.e. the last token value or `0.0`
if none was parsed), and the final callback with `job.progress = 1.0`
(lines 126-127). -/
def devicePhaseDelivered (chunks : List (List Char)) : List ℚ :=
  let toks := rsyncProgressValues chunks
  0 :: toks ++ [toks.getLastD 0, 1]

/-- All progress values delivered during the mirror transfer phase
(`mirror_upload`, uploader.py lines 287-305): exactly the per-token
callbacks — `mirror_upload` neither emits an initial `0.0` callback nor a
final `1.0` callback. -/
def mirrorPhaseDelivered (chunks : List (List Char)) : List ℚ :=
  rsyncProgressValues chunks

/-! ## Sidecar JSON generation (uploader.py `_metadata_json` / `_content_json`) -/

/-- Minimal JSON syntax tree, sufficient for the two sidecar documents. -/
inductive Json where
  | str : String → Json
  | int : Int → Json
  | bool : Bool → Json
  | arr : List Json → Json
  | obj : List (String × Json) → Json

/-- `_metadata_json` (uploader.py lines 181-194), with the clock reading
`now_ms = str(int(time.time() * 1000))` passed in as the `nowMs` argument;
everything else is a pure function of the job and the uploader's
`parent_uuid`. -/
def metadataJson (parentUuid visibleName : String) (nowMs : Nat) : Json :=
  .obj [
    ("deleted", .bool false),
    ("lastModified", .str (toString nowMs)),
    ("metadatamodified", .bool true),
    ("modified", .bool true),
    ("parent", .str parentUuid),
    ("pinned", .bool false),
    ("synced", .bool false),
    ("type", .str "DocumentType"),
    ("version", .int 1),
    ("visibleName", .str visibleName)]

/-- `_content_json` (uploader.py lines 196-216); `fileType` is `job.ext`. -/
def contentJson (fileType : String) : Json :=
  .obj [
    ("dummyDocument", .bool false),
    ("extraMetadata", .obj []),
    ("fileType", .str fileType),
    ("fontName", .str ""),
    ("lastOpenedPage", .int 0),
    ("legacyEpub", .bool false),
    ("lineHeight", .int (-1)),
    ("margins", .int 100),
    ("orientation", .str "portrait"),
    ("pageCount", .int 0),
    ("textScale", .int 1),
    ("transform", .obj [
      ("m11", .int 1), ("m12", .int 0), ("m13", .int 0),
      ("m21", .int 0), ("m22", .int 1), ("m23", .int 0),
      ("m31", .int 0), ("m32", .int 0), ("m33", .int 1)]),
    ("pages", .arr []),
    ("redirectionPageMap", .arr [])]

/-- The index-entry descriptor exactly as the spec's interface section
words it (field list of spec section 6), for comparison with
`metadataJson`.  Written from the spec text, not from the source. -/
def specIndexEntryDescriptor (parentFolderId displayName : String) (nowMs : Nat) : Json :=
  .obj [
    ("deleted", .bool false),
    ("lastModified", .str (toString nowMs)),
    ("metadatamodified", .bool true),
    ("modified", .bool true),
    ("parent", .str parentFolderId),
    ("pinned", .bool false),
    ("synced", .bool false),
    ("type", .str "DocumentType"),
    ("version", .int 1),
    ("visibleName", .str displayName)]

/-- The content descriptor exactly as the spec's interface section words it
(field list of spec section 6: identity 3x3 transform, empty page list and
the listed defaults), for comparison with `contentJson`.  Written from the
spec text, not from the source. -/
def specContentDescriptor (fileType : String) : Json :=
  .obj [
    ("dummyDocument", .bool false),
    ("extraMetadata", .obj []),
    ("fileType", .str fileType),
    ("fontName", .str ""),
    ("lastOpenedPage", .int 0),
    ("legacyEpub", .bool false),
    ("lineHeight", .int (-1)),
    ("margins", .int 100),
    ("orientation", .str "portrait"),
    ("pageCount", .int 0),
    ("textScale", .int 1),
    ("transform", .obj [
      ("m11", .int 1), ("m12", .int 0), ("m13", .int 0),
      ("m21", .int 0), ("m22", .int 1), ("m23", .int 0),
      ("m31", .int 0), ("m32", .int 0), ("m33", .int 1)]),
    ("pages", .arr []),
    ("redirectionPageMap", .arr [])]

/-- Remove one top-level field of a JSON object (used to state determinism
of the index-entry descriptor up to its timestamp field). -/
def removeField (key : String) : Json → Json
  | .obj fields => .obj (fields.filter (fun kv => kv.1 != key))
  | j => j

/-- Look up a top-level field of a JSON object. -/
def getField (j : Json) (key : String) : Option Json :=
  match j with
  | .obj fields => (fields.find? (fun kv => kv.1 == key)).map (fun kv => kv.2)
  | _ => none

/-! ## Filenames and extensions (`UploadJob.ext`, `on_paste`) -/

/-- Python `Path(name).suffix` for a final path component `name`:
the part from the last dot on, empty when there is no dot, when the dot is
the first character, or when the dot is the last character. -/
def pySuffix (name : List Char) : List Char :=
  let after := (name.reverse.takeWhile (fun c => c != '.')).reverse
  if after.length + 1 < name.length ∧ 0 < after.length then '.' :: after else []

/-- `p.suffix.lower()` as used by the UI validation (app.py line 331). -/
def pySuffixLower (name : List Char) : List Char := (pySuffix name).map Char.toLower

/-- `UploadJob.ext` (uploader.py lines 21-23):
`self.filepath.suffix.lower().lstrip(".")`. -/
def jobExt (name : List Char) : List Char :=
  (pySuffixLower name).dropWhile (fun c => c == '.')

/-- The remote filename stem+suffix `f"{uuid}.{ext}"` used by
`_rsync_file` (uploader.py line 136) and `mirror_upload` (lines 269, 277). -/
def deviceRemoteName (uuid name : List Char) : List Char :=
  uuid ++ '.' :: jobExt name

/-- The content descriptor produced for a job with source filename `name`:
`fileType` is `job.ext` verbatim (uploader.py line 200). -/
def contentJsonForName (name : List Char) : Json :=
  contentJson (String.mk (jobExt name))

/-- The UI layer's extension check (app.py `on_paste`, line 331):
`p.suffix.lower() in VALID_EXTENSIONS` with
`VALID_EXTENSIONS = {".pdf", ".epub"}`. -/
def uiAcceptsExt (name : List Char) : Bool :=
  pySuffixLower name == ".pdf".data || pySuffixLower name == ".epub".data

/-! ## Cleanup passes (uploader.py `device_cleanup` / `mirror_cleanup`) -/

/-- `device_cleanup` (uploader.py lines 353-369) runs
`rm -f '{dir}/{uuid}'.* '{dir}/.{uuid}'.*` on the device: a filename in the
remote directory is removed iff it matches one of the two shell globs,
i.e. iff it starts with `{uuid}.` or with `.{uuid}.` . -/
def deviceCleanupMatches (uuid name : List Char) : Bool :=
  (uuid ++ ['.']).isPrefixOf name || ('.' :: uuid ++ ['.']).isPrefixOf name

/-- The three per-job artifacts `{uuid}.{ext}`, `{uuid}.metadata`,
`{uuid}.content`. -/
def jobArtifacts (uuid ext : List Char) : List (List Char) :=
  [uuid ++ '.' :: ext, uuid ++ ".metadata".data, uuid ++ ".content".data]

/-- `mirror_cleanup` (uploader.py lines 332-351) deletes exactly the three
listed paths (`files = [f"{p}/{uuid}.{ext}", f"{p}/{uuid}.metadata",
f"{p}/{uuid}.content"]`), both in the remote-mirror branch (`rm -f` on that
list) and in the local-mirror branch (`unlink` on each). -/
def mirrorCleanupMatches (uuid ext name : List Char) : Bool :=
  (jobArtifacts uuid ext).contains name

/-! ## Orchestration state machine (`_do_upload`, app.py lines 360-432)

Each awaited external step either succeeds, raises an error
(`RuntimeError` from a non-zero exit, or `False` from the probe), or is
interrupted by `asyncio.CancelledError`.  An `Env` fixes one behaviour per
step; `doUpload` then computes the trace of remote operations the
orchestrator performs, the final outcome and the final job record. -/

/-- Observable behaviour of one awaited external step. -/
inductive StepResult
  | ok
  | err
  | cancelled
deriving DecidableEq

/-- How a sub-call terminates: normal return, a raised `Exception`, or a
propagating `asyncio.CancelledError`. -/
inductive Exc
  | none
  | error
  | cancelled
deriving DecidableEq

/-- Remote operations and recovery actions performed by the orchestrator,
recorded in execution order.  `killChild` stands for
`proc.kill(); await proc.wait()` applied to an in-flight transfer process
(uploader.py lines 171-174 and 308-311). -/
inductive Event
  | probe
  | mirrorTransfer
  | mirrorWriteMeta
  | mirrorWriteContent
  | deviceTransfer
  | writeMeta
  | writeContent
  | restart
  | killChild
  | mirrorCleanup
  | deviceCleanup
deriving DecidableEq

/-- Terminal outcome of one `_do_upload` run. -/
inductive Outcome
  | success
  | connectionFailed
  | failed
  | cancelled
deriving DecidableEq

/-- The mutable `UploadJob` record (uploader.py lines 13-19): `status` is
one of the strings `"pending"`, `"uploading"`, `"metadata"`, `"done"`,
`"error"` named in the source comment; `error` is the job's last-error
field.  (`filepath`/`uuid` are fixed per run and play no role in the
claims about this record.) -/
structure Job where
  status : String
  progress : ℚ
  error : Option String
deriving DecidableEq

/-- The job as constructed in `_do_upload` (app.py line 366):
`UploadJob(filepath=filepath)` with the dataclass defaults
`status="pending"`, `progress=0.0`, `error=None`. -/
def initialJob : Job := { status := "pending", progress := 0, error := none }

/-- Environment: the behaviour of every external step a run can reach.
`cbThrows` models a caller-supplied `on_progress` callback that raises when
invoked (the callbacks are called unguarded, e.g. uploader.py line 112). -/
structure Env where
  probe : StepResult
  mirrorEnabled : Bool
  mirrorTransfer : StepResult
  mirrorMeta : StepResult
  mirrorContent : StepResult
  cbThrows : Bool
  deviceTransfer : StepResult
  deviceMeta : StepResult
  deviceContent : StepResult
  restart : StepResult
deriving DecidableEq

/-- `mirror_upload` (uploader.py lines 257-330): rsync to the mirror (on
error/cancellation inside the read loop the child is killed and awaited and
the exception propagates — for a non-zero exit the process has already
exited, so no kill), then the two mirror sidecar writes, each of which can
raise or be cancelled. -/
def mirrorLeg (mt mm mc : StepResult) : List Event × Exc :=
  match mt with
  | .err => ([.mirrorTransfer], .error)
  | .cancelled => ([.mirrorTransfer, .killChild], .cancelled)
  | .ok =>
    match mm with
    | .err => ([.mirrorTransfer, .mirrorWriteMeta], .error)
    | .cancelled => ([.mirrorTransfer, .mirrorWriteMeta], .cancelled)
    | .ok =>
      match mc with
      | .err => ([.mirrorTransfer, .mirrorWriteMeta, .mirrorWriteContent], .error)
      | .cancelled => ([.mirrorTransfer, .mirrorWriteMeta, .mirrorWriteContent], .cancelled)
      | .ok => ([.mirrorTransfer, .mirrorWriteMeta, .mirrorWriteContent], Exc.none)

/-- `upload_file` (uploader.py lines 100-128) applied to job `j`:
set `status="uploading"`, `progress=0.0` and call `progress(job)` (an
unguarded callback: if it raises, the exception propagates before the
transfer starts); rsync to the device (kill+await+re-raise on an exception
inside the loop); set `status="metadata"`, call `progress(job)`; write the
index-entry descriptor, then the content descriptor; set `status="done"`,
`progress=1.0`, call `progress(job)`. -/
def uploadFileM (cb : Bool) (dt dm dc : StepResult) (j : Job) : List Event × Job × Exc :=
  let j1 : Job := { j with status := "uploading", progress := 0 }
  if cb then ([], j1, .error)
  else
    match dt with
    | .err => ([.deviceTransfer], j1, .error)
    | .cancelled => ([.deviceTransfer, .killChild], j1, .cancelled)
    | .ok =>
      let j2 : Job := { j1 with status := "metadata" }
      match dm with
      | .err => ([.deviceTransfer, .writeMeta], j2, .error)
      | .cancelled => ([.deviceTransfer, .writeMeta], j2, .cancelled)
      | .ok =>
        match dc with
        | .err => ([.deviceTransfer, .writeMeta, .writeContent], j2, .error)
        | .cancelled => ([.deviceTransfer, .writeMeta, .writeContent], j2, .cancelled)
        | .ok => ([.deviceTransfer, .writeMeta, .writeContent],
                  { j2 with status := "done", progress := 1 }, Exc.none)

/-- The mirror leg as run by `_do_upload` (app.py lines 380-393): executed
only when `uploader.mirror_enabled`. -/
def mirrorResult (env : Env) : List Event × Exc :=
  if env.mirrorEnabled then mirrorLeg env.mirrorTransfer env.mirrorMeta env.mirrorContent
  else ([], Exc.none)

/-- Result of one `_do_upload` run. -/
structure RunResult where
  trace : List Event
  outcome : Outcome
  job : Job
deriving DecidableEq

/-- The cleanup block of both `except` handlers (app.py lines 414-424):
`mirror_cleanup` when `mirror_done`, then `device_cleanup`, always in that
order. -/
def cleanups (mirrorDone : Bool) : List Event :=
  (if mirrorDone then [Event.mirrorCleanup] else []) ++ [Event.deviceCleanup]

/-- `_do_upload` (app.py lines 360-432).  Branch by branch:

* probe returns `False` (app.py 374-377): plain `return`, no cleanup;
* probe interrupted: the `except asyncio.CancelledError` handler runs with
  `mirror_done = False`, so only `device_cleanup`;
* mirror leg raises or is cancelled: `mirror_done` is still `False`
  (it is set only after `mirror_upload` returns, app.py 392), so the
  handler runs only `device_cleanup`;
* device leg (`upload_file`) raises or is cancelled: handler runs
  `mirror_cleanup` iff `mirror_done` (iff the mirror leg completed, i.e.
  iff `mirror_enabled` on this path) and then `device_cleanup`;
* `restart_xochitl` raises or is cancelled: the same handlers run — the
  restart failure is *not* special-cased;
* otherwise: success. -/
def doUpload (env : Env) : RunResult :=
  match env.probe with
  | .err => { trace := [.probe], outcome := .connectionFailed, job := initialJob }
  | .cancelled => { trace := [.probe] ++ cleanups false, outcome := .cancelled, job := initialJob }
  | .ok =>
    let m := mirrorResult env
    match m.2 with
    | .error =>
        { trace := [.probe] ++ m.1 ++ cleanups false, outcome := .failed, job := initialJob }
    | .cancelled =>
        { trace := [.probe] ++ m.1 ++ cleanups false, outcome := .cancelled, job := initialJob }
    | .none =>
      let u := uploadFileM env.cbThrows env.deviceTransfer env.deviceMeta env.deviceContent
        initialJob
      match u.2.2 with
      | .error =>
          { trace := [.probe] ++ m.1 ++ u.1 ++ cleanups env.mirrorEnabled,
            outcome := .failed, job := u.2.1 }
      | .cancelled =>
          { trace := [.probe] ++ m.1 ++ u.1 ++ cleanups env.mirrorEnabled,
            outcome := .cancelled, job := u.2.1 }
      | .none =>
        match env.restart with
        | .err =>
            { trace := [.probe] ++ m.1 ++ u.1 ++ [.restart] ++ cleanups env.mirrorEnabled,
              outcome := .failed, job := u.2.1 }
        | .cancelled =>
            { trace := [.probe] ++ m.1 ++ u.1 ++ [.restart] ++ cleanups env.mirrorEnabled,
              outcome := .cancelled, job := u.2.1 }
        | .ok =>
            { trace := [.probe] ++ m.1 ++ u.1 ++ [.restart],
              outcome := .success, job := u.2.1 }

/-- The phase events proper (probe, transfers, writes, restart), as opposed
to the recovery actions (kill, cleanups). -/
def isPhaseEvent : Event → Bool
  | .probe => true
  | .mirrorTransfer => true
  | .mirrorWriteMeta => true
  | .mirrorWriteContent => true
  | .deviceTransfer => true
  | .writeMeta => true
  | .writeContent => true
  | .restart => true
  | _ => false

/-- Phase events of a trace, in order. -/
def phaseEvents (tr : List Event) : List Event := tr.filter isPhaseEvent

/-- The canonical phase order of the spec: probe; mirror transfer and the
two mirror metadata writes when a mirror is configured; device transfer;
the two device metadata writes (index entry, then content); restart. -/
def canonicalOrder (mirror : Bool) : List Event :=
  [.probe]
    ++ (if mirror then [.mirrorTransfer, .mirrorWriteMeta, .mirrorWriteContent] else [])
    ++ [.deviceTransfer, .writeMeta, .writeContent, .restart]

end RmUpload

namespace RmUpload

/-! ## Lemmas about the splitter and the reader fold -/

theorem consFst_ne_nil (x : List Char) (l : List (List Char)) : consFst x l ≠ [] := by
  cases l <;> simp [consFst]

theorem splitSeps_ne_nil (s : List Char) : splitSeps s ≠ [] := by
  induction s with
  | nil => simp [splitSeps]
  | cons c rest ih =>
    simp only [splitSeps]
    split
    · simp
    · exact consFst_ne_nil _ _

theorem consFst_nil_of_ne_nil {l : List (List Char)} (h : l ≠ []) : consFst [] l = l := by
  cases l with
  | nil => exact absurd rfl h
  | cons a t => simp [consFst]

theorem consFst_consFst (x y : List Char) (l : List (List Char)) :
    consFst x (consFst y l) = consFst (x ++ y) l := by
  cases l <;> simp [consFst]

theorem splitSeps_cons_sep {c : Char} (h : isSep c = true) (rest : List Char) :
    splitSeps (c :: rest) = [] :: splitSeps rest := by
  simp [splitSeps, h]

theorem splitSeps_cons_notSep {c : Char} (h : isSep c = false) (rest : List Char) :
    splitSeps (c :: rest) = consFst [c] (splitSeps rest) := by
  simp [splitSeps, h]

theorem consFst_cons (x l : List Char) (ls : List (List Char)) :
    consFst x (l :: ls) = (x ++ l) :: ls := rfl

/-- Every segment produced by the splitter is separator-free. -/
theorem splitSeps_sepFree (s : List Char) :
    ∀ part ∈ splitSeps s, ∀ c ∈ part, isSep c = false := by
  induction s with
  | nil =>
    intro part hp c hc
    rw [show splitSeps [] = [[]] from rfl, List.mem_singleton] at hp
    subst hp
    simp at hc
  | cons a rest ih =>
    intro part hp c hc
    by_cases ha : isSep a
    · rw [splitSeps_cons_sep ha, List.mem_cons] at hp
      rcases hp with hp | hp
      · subst hp; simp at hc
      · exact ih part hp c hc
    · have ha' : isSep a = false := by simpa using ha
      rcases hsr : splitSeps rest with _ | ⟨l, ls⟩
      · exact absurd hsr (splitSeps_ne_nil rest)
      · rw [splitSeps_cons_notSep ha', hsr, consFst_cons, List.mem_cons] at hp
        rcases hp with hp | hp
        · subst hp
          rcases List.mem_cons.mp hc with h1 | h1
          · subst h1; exact ha'
          · exact ih l (by rw [hsr]; exact List.mem_cons_self _ _) c h1
        · exact ih part (by rw [hsr]; exact List.mem_cons_of_mem _ hp) c hc

/-- The splitter leaves a separator-free string whole. -/
theorem splitSeps_eq_single {s : List Char} (h : ∀ c ∈ s, isSep c = false) :
    splitSeps s = [s] := by
  induction s with
  | nil => rfl
  | cons a rest ih =>
    have ha : isSep a = false := h a (by simp)
    have hr := ih (fun c hc => h c (by simp [hc]))
    rw [splitSeps_cons_notSep ha, hr, consFst_cons]
    rfl

/-- Splitting a concatenation: the last (incomplete) segment of the left
part merges with the first segment of the right part. -/
theorem splitSeps_append (a b : List Char) :
    splitSeps (a ++ b) =
      (splitSeps a).dropLast ++ consFst ((splitSeps a).getLastD []) (splitSeps b) := by
  induction a with
  | nil =>
    rw [List.nil_append, show splitSeps [] = [[]] from rfl]
    rw [show (([[]] : List (List Char)).dropLast) = [] from rfl,
        show (([[]] : List (List Char)).getLastD []) = [] from rfl,
        consFst_nil_of_ne_nil (splitSeps_ne_nil b), List.nil_append]
  | cons c a ih =>
    by_cases hc : isSep c
    · rcases hsa : splitSeps a with _ | ⟨s, S⟩
      · exact absurd hsa (splitSeps_ne_nil a)
      · rw [List.cons_append, splitSeps_cons_sep hc, ih, hsa, splitSeps_cons_sep hc, hsa]
        have h1 : (([] : List Char) :: s :: S).dropLast = [] :: (s :: S).dropLast := rfl
        have h2 : (([] : List Char) :: s :: S).getLastD [] = (s :: S).getLastD [] :=
          List.getLastD_cons _ _ _
        rw [h1, h2]
        rfl
    · have hc' : isSep c = false := by simpa using hc
      rcases hsa : splitSeps a with _ | ⟨s, S⟩
      · exact absurd hsa (splitSeps_ne_nil a)
      · rcases S with _ | ⟨s', S'⟩
        · rw [List.cons_append, splitSeps_cons_notSep hc', ih, hsa,
              splitSeps_cons_notSep hc', hsa, consFst_cons]
          have d1 : ([s] : List (List Char)).dropLast = [] := rfl
          have d2 : ([s] : List (List Char)).getLastD [] = s := rfl
          have d3 : ([[c] ++ s] : List (List Char)).dropLast = [] := rfl
          have d4 : ([[c] ++ s] : List (List Char)).getLastD [] = [c] ++ s := rfl
          rw [d1, d2, d3, d4, List.nil_append, List.nil_append, consFst_consFst]
        · rw [List.cons_append, splitSeps_cons_notSep hc', ih, hsa,
              splitSeps_cons_notSep hc', hsa, consFst_cons]
          have d3 : (s :: s' :: S').dropLast = s :: (s' :: S').dropLast := rfl
          have d4 : (([c] ++ s) :: s' :: S').dropLast = ([c] ++ s) :: (s' :: S').dropLast := rfl
          rw [d3, d4]
          simp only [List.cons_append]
          rw [consFst_cons]
          simp only [List.nil_append, List.singleton_append, List.getLastD_cons]

/-- The buffered trailing fragment of a split is separator-free. -/
theorem getLastD_splitSeps_sepFree (s : List Char) :
    ∀ c ∈ (splitSeps s).getLastD [], isSep c = false := by
  intro c hc
  rcases hgl : (splitSeps s).getLast? with _ | x
  · rw [List.getLastD_eq_getLast?, hgl] at hc
    simp at hc
  · rw [List.getLastD_eq_getLast?, hgl] at hc
    exact splitSeps_sepFree s x (List.mem_of_getLast?_eq_some hgl) c hc

/-- `lineTokens` distributes over concatenation. -/
theorem lineTokens_append (a b : List (List Char)) :
    lineTokens (a ++ b) = lineTokens a ++ lineTokens b := by
  simp [lineTokens]

/-- The default-filled last element of an append with nonempty right part. -/
theorem getLastD_append_of_ne_nil (l l2 : List (List Char)) (h : l2 ≠ []) :
    (l ++ l2).getLastD [] = l2.getLastD [] := by
  rw [List.getLastD_eq_getLast?, List.getLastD_eq_getLast?, List.getLast?_append]
  rcases hq : l2.getLast? with _ | z
  · exact absurd (List.getLast?_eq_none_iff.mp hq) h
  · rw [Option.or_some]

/-- Two reader iterations, on chunks `c` then `d`, behave exactly like one
iteration on the single chunk `c ++ d`: the buffered trailing fragment makes
the reader invariant under re-chunking of the stream. -/
theorem stepChunk_append (st : RState) (c d : List Char) :
    stepChunk (stepChunk st c) d = stepChunk st (c ++ d) := by
  have hfree := getLastD_splitSeps_sepFree (st.buf ++ c)
  have hQ : splitSeps ((splitSeps (st.buf ++ c)).getLastD [] ++ d)
      = consFst ((splitSeps (st.buf ++ c)).getLastD []) (splitSeps d) := by
    rw [splitSeps_append, splitSeps_eq_single hfree]
    rfl
  have hR : splitSeps (st.buf ++ (c ++ d))
      = (splitSeps (st.buf ++ c)).dropLast
          ++ consFst ((splitSeps (st.buf ++ c)).getLastD []) (splitSeps d) := by
    rw [← List.append_assoc, splitSeps_append]
  have hQne : consFst ((splitSeps (st.buf ++ c)).getLastD []) (splitSeps d) ≠ [] :=
    consFst_ne_nil _ _
  simp only [stepChunk, hQ, hR]
  congr 1
  · exact (getLastD_append_of_ne_nil _ _ hQne).symm
  · rw [List.dropLast_append_of_ne_nil _ hQne, lineTokens_append, List.append_assoc]

/-- Folding the reader over `c :: chunks` equals one iteration on the
concatenation. -/
theorem foldl_stepChunk (st : RState) (c : List Char) (chunks : List (List Char)) :
    List.foldl stepChunk st (c :: chunks) = stepChunk st (c ++ chunks.flatten) := by
  induction chunks generalizing st c with
  | nil => simp [List.foldl]
  | cons d rest ih =>
    rw [List.foldl_cons, ih, stepChunk_append, List.flatten_cons]

/-- The reader over any chunk sequence equals one iteration on the flattened
stream. -/
theorem runReader_eq (chunks : List (List Char)) :
    runReader chunks = stepChunk ⟨[], []⟩ chunks.flatten := by
  cases chunks with
  | nil => rfl
  | cons c rest => exact foldl_stepChunk _ c rest

/-- The delivered tokens are the tokens of the complete lines of the
flattened stream. -/
theorem deliveredPcts_eq (chunks : List (List Char)) :
    deliveredPcts chunks = lineTokens (splitSeps chunks.flatten).dropLast := by
  rw [deliveredPcts, runReader_eq]
  simp only [stepChunk, List.nil_append]

/-! ## Claim C8: the incremental progress reader -/

/-- **C8** (confirmed).  For every sequence of read chunks of the transfer
process's output stream, the progress reader splits the accumulated bytes on
both carriage return and newline, keeps the incomplete trailing fragment
buffered across reads, extracts the first integer percentage token of each
complete logical line, converts it to the fraction `pct / 100`, and invokes
the progress sink once per such token: the delivered values are exactly the
tokens of the complete logical lines of the flattened stream — in
particular they are independent of how the stream was cut into chunks, so a
percentage token straddling two chunks is still parsed. -/
theorem reader_splits_buffers_and_parses (chunks : List (List Char)) :
    deliveredPcts chunks = lineTokens (splitSeps chunks.flatten).dropLast
      ∧ (runReader chunks).buf = (splitSeps chunks.flatten).getLastD []
      ∧ rsyncProgressValues chunks
          = (lineTokens (splitSeps chunks.flatten).dropLast).map (fun p : ℕ => (p : ℚ) / 100)
      ∧ ∀ chunks₂ : List (List Char), chunks.flatten = chunks₂.flatten →
          deliveredPcts chunks = deliveredPcts chunks₂ := by
  refine ⟨deliveredPcts_eq chunks, ?_, ?_, ?_⟩
  · rw [runReader_eq]
    simp only [stepChunk, List.nil_append]
  · rw [rsyncProgressValues, deliveredPcts_eq]
  · intro chunks₂ h
    rw [deliveredPcts_eq, deliveredPcts_eq, h]

/-- Witness for C8 at a concrete input: the token `123%` cut between two
reads (`"12"`, then `"3% \n"`) is parsed exactly as in the unsplit
stream. -/
theorem reader_splits_buffers_and_parses_witness :
    deliveredPcts ["12".data, "3% \n".data] = [123]
      ∧ deliveredPcts ["12".data, "3% \n".data] = deliveredPcts ["123% \n".data] :=
  ⟨by decide,
   (reader_splits_buffers_and_parses ["12".data, "3% \n".data]).2.2.2 ["123% \n".data]
     (by decide)⟩

/-! ## Claim C4: progress value invariants per phase -/

/-- **C4** counterexample.  The claim fails on the code as stated: the
reader forwards any integer percentage token verbatim, so a token above 100
yields a delivered value above `1` (and a subsequent smaller token a
decrease); and for the mirror phase the final callback of a successful
transfer is the last parsed token, not a forced `1.0` — here a stream whose
only token is `50%` ends the mirror phase at `0.5`. -/
theorem progress_bounds_cex :
    deliveredPcts ["x 150% y\n".data] = [150]
      ∧ ((150 : ℚ) / 100) ∈ devicePhaseDelivered ["x 150% y\n".data]
      ∧ ¬ ((150 : ℚ) / 100 ≤ 1)
      ∧ deliveredPcts ["50%\n".data] = [50]
      ∧ (mirrorPhaseDelivered ["50%\n".data]).getLast? = some ((50 : ℚ) / 100)
      ∧ (50 : ℚ) / 100 ≠ 1 := by
  have h1 : deliveredPcts ["x 150% y\n".data] = [150] := by decide
  have h2 : deliveredPcts ["50%\n".data] = [50] := by decide
  refine ⟨h1, ?_, by norm_num, h2, ?_, by norm_num⟩
  · simp [devicePhaseDelivered, rsyncProgressValues, h1]
  · simp [mirrorPhaseDelivered, rsyncProgressValues, h2]

/-- Either the default or a member. -/
theorem getLastD_mem_or (l : List ℚ) (d : ℚ) : l.getLastD d = d ∨ l.getLastD d ∈ l := by
  rw [List.getLastD_eq_getLast?]
  rcases h : l.getLast? with _ | x
  · exact Or.inl rfl
  · exact Or.inr (by simpa using List.mem_of_getLast?_eq_some h)

theorem getLast?_cons_eq (a : ℚ) (l : List ℚ) :
    (a :: l).getLast? = some (l.getLastD a) := by
  induction l generalizing a with
  | nil => rfl
  | cons b t ih => rw [List.getLast?_cons_cons, ih, List.getLastD_cons]

/-- **C4** (amended, corrected claim).  Provided every parsed percentage
token of the transfer output is at most `100` and the tokens arrive in
non-decreasing order (which rsync's `--info=progress2` stream satisfies but
the code does not enforce), every delivered progress value lies in `[0, 1]`
and the delivered sequence is non-decreasing within each phase; the device
phase starts with a `0` callback and, on success, its final callback
reports exactly `1`; the mirror phase delivers exactly the parsed tokens —
its progress starts at the job's initial `0.0` but its final callback is
the last parsed token, not a forced `1`. -/
theorem progress_phase_invariants (chunks : List (List Char))
    (hle : ∀ p ∈ deliveredPcts chunks, p ≤ 100)
    (hmono : (deliveredPcts chunks).Chain' (· ≤ ·)) :
    (∀ q ∈ devicePhaseDelivered chunks, 0 ≤ q ∧ q ≤ 1)
      ∧ (devicePhaseDelivered chunks).Chain' (· ≤ ·)
      ∧ (devicePhaseDelivered chunks).head? = some 0
      ∧ (devicePhaseDelivered chunks).getLast? = some 1
      ∧ mirrorPhaseDelivered chunks = rsyncProgressValues chunks
      ∧ (∀ q ∈ mirrorPhaseDelivered chunks, 0 ≤ q ∧ q ≤ 1)
      ∧ (mirrorPhaseDelivered chunks).Chain' (· ≤ ·) := by
  have hmem : ∀ q ∈ rsyncProgressValues chunks,
      ∃ p ∈ deliveredPcts chunks, q = (p : ℚ) / 100 := by
    intro q hq
    rcases List.mem_map.mp hq with ⟨p, hp, hpe⟩
    exact ⟨p, hp, hpe.symm⟩
  have htb : ∀ q ∈ rsyncProgressValues chunks, 0 ≤ q ∧ q ≤ 1 := by
    intro q hq
    obtain ⟨p, hp, rfl⟩ := hmem q hq
    refine ⟨div_nonneg (Nat.cast_nonneg p) (by norm_num), ?_⟩
    rw [div_le_one (by norm_num)]
    exact_mod_cast hle p hp
  have htc : (rsyncProgressValues chunks).Chain' (· ≤ ·) :=
    (List.chain'_map (fun p : ℕ => (p : ℚ) / 100)).mpr
      (hmono.imp (fun a b h =>
        (div_le_div_iff_of_pos_right (by norm_num)).mpr (by exact_mod_cast h)))
  have hdev : devicePhaseDelivered chunks
      = 0 :: rsyncProgressValues chunks
          ++ [(rsyncProgressValues chunks).getLastD 0, 1] := rfl
  have hlastb : 0 ≤ (rsyncProgressValues chunks).getLastD 0
      ∧ (rsyncProgressValues chunks).getLastD 0 ≤ 1 := by
    rcases getLastD_mem_or (rsyncProgressValues chunks) 0 with h | h
    · rw [h]
      norm_num
    · exact htb _ h
  refine ⟨?_, ?_, ?_, ?_, rfl, htb, htc⟩
  · intro q hq
    rw [hdev] at hq
    rcases List.mem_cons.mp hq with rfl | hq
    · norm_num
    rcases List.mem_append.mp hq with hq | hq
    · exact htb q hq
    rcases List.mem_cons.mp hq with rfl | hq
    · exact hlastb
    rcases List.mem_cons.mp hq with rfl | hq
    · norm_num
    · simp at hq
  · rw [hdev,
      show (0 : ℚ) :: rsyncProgressValues chunks
          ++ [(rsyncProgressValues chunks).getLastD 0, 1]
        = ((0 : ℚ) :: rsyncProgressValues chunks)
          ++ [(rsyncProgressValues chunks).getLastD 0, 1] from rfl,
      List.chain'_append]
    refine ⟨?_, ?_, ?_⟩
    · rw [List.chain'_cons']
      exact ⟨fun y hy => (htb y (List.mem_of_mem_head? hy)).1, htc⟩
    · rw [List.chain'_pair]
      exact hlastb.2
    · intro x hx y hy
      rw [getLast?_cons_eq] at hx
      simp only [Option.mem_def, Option.some_inj, List.head?_cons] at hx hy
      rw [← hx, ← hy]
  · rw [hdev]
    rfl
  · rw [hdev,
      show (0 : ℚ) :: rsyncProgressValues chunks
          ++ [(rsyncProgressValues chunks).getLastD 0, 1]
        = ((0 : ℚ) :: rsyncProgressValues chunks)
          ++ [(rsyncProgressValues chunks).getLastD 0, 1] from rfl,
      List.getLast?_append]
    rfl

/-- Witness for the amended C4 at a concrete well-behaved stream
(`42%` overwritten by `100%`). -/
theorem progress_phase_invariants_witness :
    (devicePhaseDelivered ["42% \r100% x\n".data]).Chain' (· ≤ ·)
      ∧ (devicePhaseDelivered ["42% \r100% x\n".data]).getLast? = some 1 := by
  have hmono : (deliveredPcts ["42% \r100% x\n".data]).Chain' (· ≤ ·) := by
    rw [show deliveredPcts ["42% \r100% x\n".data] = [42, 100] from by decide]
    norm_num [List.chain'_cons]
  exact ⟨(progress_phase_invariants ["42% \r100% x\n".data] (by decide) hmono).2.1,
    (progress_phase_invariants ["42% \r100% x\n".data] (by decide) hmono).2.2.2.1⟩

/-! ## Claim C9: sidecar generation -/

/-- **C9** (confirmed).  For fixed inputs, sidecar generation is a pure
function (the clock reading is the explicit `nowMs` argument, the only
input that varies between calls), deterministic except for the timestamp
field, and both produced documents agree — field names, types, values and
order — with the field sets of the spec's interface section, with the
content descriptor's `fileType` one of `"pdf"`/`"epub"` for validated
inputs. -/
theorem sidecar_generation_matches_spec
    (parentUuid visibleName : String) (nowMs nowMs₂ : Nat) (ext : String)
    (hext : ext = "pdf" ∨ ext = "epub") :
    metadataJson parentUuid visibleName nowMs
        = specIndexEntryDescriptor parentUuid visibleName nowMs
      ∧ contentJson ext = specContentDescriptor ext
      ∧ removeField "lastModified" (metadataJson parentUuid visibleName nowMs)
          = removeField "lastModified" (metadataJson parentUuid visibleName nowMs₂)
      ∧ (getField (contentJson ext) "fileType" = some (.str "pdf")
          ∨ getField (contentJson ext) "fileType" = some (.str "epub")) := by
  refine ⟨rfl, rfl, rfl, ?_⟩
  rcases hext with h | h
  · subst h; exact Or.inl rfl
  · subst h; exact Or.inr rfl

/-- Witness for C9 at concrete inputs. -/
theorem sidecar_generation_matches_spec_witness :
    metadataJson "" "notes" 1700000000000
        = specIndexEntryDescriptor "" "notes" 1700000000000
      ∧ removeField "lastModified" (metadataJson "" "notes" 1700000000000)
          = removeField "lastModified" (metadataJson "" "notes" 1700000000001)
      ∧ contentJson "pdf" = specContentDescriptor "pdf" := by
  have h := sidecar_generation_matches_spec "" "notes" 1700000000000 1700000000001 "pdf"
    (Or.inl rfl)
  exact ⟨h.1, h.2.2.1, h.2.1⟩

/-! ## Claim C10: no extension validation in the uploader -/

/-- `takeWhile` of an append whose left part satisfies the predicate and
whose next element does not. -/
theorem takeWhile_append_eq (p : Char → Bool) (l : List Char) (x : Char) (r : List Char)
    (hl : ∀ c ∈ l, p c = true) (hx : p x = false) :
    (l ++ x :: r).takeWhile p = l := by
  induction l with
  | nil => simp [List.takeWhile_cons, hx]
  | cons a t ih =>
    have ha := hl a (by simp)
    simp [List.takeWhile_cons, ha, ih (fun c hc => hl c (by simp [hc]))]

/-- `Char.ofNat` of a valid codepoint evaluates back to it. -/
theorem toNat_ofNat_of_valid {n : Nat} (h : n.isValidChar) :
    (Char.ofNat n).toNat = n := by
  rw [Char.ofNat, dif_pos h]
  rfl

/-- `Char.toLower` maps only uppercase letters (to lowercase letters), so it
never produces a dot from a non-dot. -/
theorem toLower_ne_dot {c : Char} (hc : c ≠ '.') : Char.toLower c ≠ '.' := by
  intro h
  unfold Char.toLower at h
  dsimp only at h
  by_cases hn : c.toNat ≥ 65 ∧ c.toNat ≤ 90
  · rw [if_pos hn] at h
    have hv : (c.toNat + 32).isValidChar := by
      left
      omega
    have h2 := congrArg Char.toNat h
    rw [toNat_ofNat_of_valid hv, show ('.' : Char).toNat = 46 from rfl] at h2
    omega
  · rw [if_neg hn] at h
    exact hc h

/-- Parse of a well-formed `stem.ext` filename: the suffix is the part from
the last dot. -/
theorem pySuffix_append (stem e : List Char) (hstem : stem ≠ []) (he : e ≠ [])
    (hd : '.' ∉ e) : pySuffix (stem ++ '.' :: e) = '.' :: e := by
  have hrev : (stem ++ '.' :: e).reverse = e.reverse ++ '.' :: stem.reverse := by
    simp [List.reverse_append]
  have htw : ((stem ++ '.' :: e).reverse.takeWhile (fun c => c != '.')) = e.reverse := by
    rw [hrev]
    refine takeWhile_append_eq _ _ '.' _ ?_ (by simp)
    intro c hc
    simp only [bne_iff_ne, ne_eq]
    intro hcc
    exact hd (hcc ▸ List.mem_reverse.mp hc)
  simp only [pySuffix, htw, List.reverse_reverse]
  rw [if_pos]
  constructor
  · have h1 := List.length_pos.mpr hstem
    simp only [List.length_append, List.length_cons, List.length_reverse]
    omega
  · simpa [List.length_reverse] using List.length_pos.mpr he

/-- `UploadJob.ext` of a well-formed `stem.ext` filename is the lower-cased
extension. -/
theorem jobExt_append (stem e : List Char) (hstem : stem ≠ []) (he : e ≠ [])
    (hd : '.' ∉ e) : jobExt (stem ++ '.' :: e) = e.map Char.toLower := by
  rw [jobExt, pySuffixLower, pySuffix_append stem e hstem he hd, List.map_cons]
  rw [show Char.toLower '.' = '.' from rfl]
  have hstep : List.dropWhile (fun c => c == '.') ('.' :: List.map Char.toLower e)
      = List.dropWhile (fun c => c == '.') (List.map Char.toLower e) := by
    rw [List.dropWhile_cons]
    simp
  rw [hstep]
  cases e with
  | nil => exact absurd rfl he
  | cons f e2 =>
    rw [List.map_cons, List.dropWhile_cons]
    have hf : (Char.toLower f == '.') = false := by
      simp only [beq_eq_false_iff_ne, ne_eq]
      exact toLower_ne_dot (fun hcc => hd (by simp [hcc]))
    rw [hf]
    simp

/-- **C10** (confirmed).  The uploader performs no extension validation:
the job's extension is the lower-cased filename suffix with the leading dot
stripped, and that string — possibly empty, possibly outside
`{"pdf", "epub"}` — is used verbatim both as the remote filename suffix and
as the content descriptor's `fileType`; only the UI layer's `on_paste`
check restricts inputs to `.pdf`/`.epub`. -/
theorem no_extension_validation_in_uploader :
    (∀ uuid name : List Char, deviceRemoteName uuid name = uuid ++ '.' :: jobExt name)
      ∧ (∀ name : List Char,
          getField (contentJsonForName name) "fileType"
            = some (.str (String.mk (jobExt name))))
      ∧ (∀ stem e : List Char, stem ≠ [] → e ≠ [] → '.' ∉ e →
          jobExt (stem ++ '.' :: e) = e.map Char.toLower)
      ∧ jobExt "file.TXT".data = "txt".data
      ∧ uiAcceptsExt "file.TXT".data = false
      ∧ getField (contentJsonForName "file.TXT".data) "fileType" = some (.str "txt")
      ∧ jobExt "README".data = []
      ∧ deviceRemoteName "u".data "README".data = "u.".data
      ∧ (∀ name : List Char, uiAcceptsExt name = true ↔
          (pySuffixLower name = ".pdf".data ∨ pySuffixLower name = ".epub".data)) := by
  refine ⟨fun _ _ => rfl, fun _ => rfl, jobExt_append, by decide, by decide, rfl,
    by decide, by decide, ?_⟩
  intro name
  simp [uiAcceptsExt]

/-- Witness for C10's extension characterization at `file.TXT`. -/
theorem no_extension_validation_in_uploader_witness :
    jobExt ("file".data ++ '.' :: "TXT".data) = "TXT".data.map Char.toLower :=
  no_extension_validation_in_uploader.2.2.1 "file".data "TXT".data
    (by decide) (by decide) (by decide)

/-! ## Claim C6: cleanup passes -/

/-- A list is a prefix of itself extended. -/
theorem isPrefixOf_append_self (a t : List Char) : a.isPrefixOf (a ++ t) = true := by
  rw [List.isPrefixOf_iff_prefix]
  exact List.prefix_append a t

/-- **C6** counterexample.  A transport temp file `.{id}.pdf.AbC123` (the
dot-prefixed variant rsync leaves behind) is matched by the device cleanup
globs but is *not* one of the three paths the mirror cleanup deletes: the
mirror cleanup pass does not remove dot-prefixed temp files. -/
theorem cleanup_pass_cex :
    deviceCleanupMatches "u".data ('.' :: "u".data ++ ".pdf.AbC123".data) = true
      ∧ mirrorCleanupMatches "u".data "pdf".data
          ('.' :: "u".data ++ ".pdf.AbC123".data) = false := by
  exact ⟨by decide, by decide⟩

/-- **C6** (amended, corrected claim).  The device cleanup pass removes, in
one pass keyed on the job id, everything matching `{id}.*` — in particular
all three artifacts — and everything matching the transport temp pattern
`.{id}.*`.  The mirror cleanup pass removes exactly the three named
artifacts `{id}.{ext}`, `{id}.metadata`, `{id}.content` and nothing else —
in particular no dot-prefixed transport temp files. -/
theorem cleanup_pass_removals (uuid ext rest : List Char) :
    deviceCleanupMatches uuid (uuid ++ '.' :: ext) = true
      ∧ deviceCleanupMatches uuid (uuid ++ ".metadata".data) = true
      ∧ deviceCleanupMatches uuid (uuid ++ ".content".data) = true
      ∧ deviceCleanupMatches uuid ('.' :: uuid ++ '.' :: rest) = true
      ∧ (∀ name : List Char,
          mirrorCleanupMatches uuid ext name = true ↔ name ∈ jobArtifacts uuid ext) := by
  refine ⟨?_, ?_, ?_, ?_, ?_⟩
  · rw [deviceCleanupMatches, Bool.or_eq_true]
    exact Or.inl (by
      rw [show uuid ++ '.' :: ext = (uuid ++ ['.']) ++ ext by simp]
      exact isPrefixOf_append_self _ _)
  · rw [deviceCleanupMatches, Bool.or_eq_true]
    exact Or.inl (by
      rw [show uuid ++ ".metadata".data = (uuid ++ ['.']) ++ "metadata".data by simp]
      exact isPrefixOf_append_self _ _)
  · rw [deviceCleanupMatches, Bool.or_eq_true]
    exact Or.inl (by
      rw [show uuid ++ ".content".data = (uuid ++ ['.']) ++ "content".data by simp]
      exact isPrefixOf_append_self _ _)
  · rw [deviceCleanupMatches, Bool.or_eq_true]
    exact Or.inr (by
      rw [show '.' :: uuid ++ '.' :: rest = ('.' :: uuid ++ ['.']) ++ rest by simp]
      exact isPrefixOf_append_self _ _)
  · intro name
    rw [mirrorCleanupMatches, List.contains, List.elem_iff]

/-! ## Lemmas about the orchestration model -/

theorem phaseEvents_append (a b : List Event) :
    phaseEvents (a ++ b) = phaseEvents a ++ phaseEvents b := by
  simp [phaseEvents]

theorem phaseEvents_cleanups (b : Bool) : phaseEvents (cleanups b) = [] := by
  cases b <;> rfl

theorem mirrorLeg_events_front (mt mm mc : StepResult) :
    phaseEvents (mirrorLeg mt mm mc).1
      <+: [Event.mirrorTransfer, Event.mirrorWriteMeta, Event.mirrorWriteContent] := by
  rcases mt <;> rcases mm <;> rcases mc <;> decide

theorem mirrorLeg_events_of_none (mt mm mc : StepResult)
    (h : (mirrorLeg mt mm mc).2 = Exc.none) :
    (mirrorLeg mt mm mc).1
      = [Event.mirrorTransfer, Event.mirrorWriteMeta, Event.mirrorWriteContent] := by
  rcases mt <;> rcases mm <;> rcases mc <;> first | rfl | exact absurd h (by decide)

theorem mirrorResult_events_front (env : Env) :
    phaseEvents (mirrorResult env).1
      <+: (if env.mirrorEnabled then
            [Event.mirrorTransfer, Event.mirrorWriteMeta, Event.mirrorWriteContent]
          else []) := by
  rw [mirrorResult]
  cases henv : env.mirrorEnabled
  · simp [phaseEvents]
  · simpa using mirrorLeg_events_front env.mirrorTransfer env.mirrorMeta env.mirrorContent

theorem mirrorResult_events_of_none (env : Env)
    (h : (mirrorResult env).2 = Exc.none) :
    (mirrorResult env).1
      = (if env.mirrorEnabled then
          [Event.mirrorTransfer, Event.mirrorWriteMeta, Event.mirrorWriteContent]
        else []) := by
  rw [mirrorResult] at h ⊢
  cases henv : env.mirrorEnabled
  · simp
  · rw [henv] at h
    simp only [if_pos] at h ⊢
    exact mirrorLeg_events_of_none env.mirrorTransfer env.mirrorMeta env.mirrorContent h

theorem uploadFileM_events_front (cb : Bool) (dt dm dc : StepResult) :
    phaseEvents (uploadFileM cb dt dm dc initialJob).1
      <+: [Event.deviceTransfer, Event.writeMeta, Event.writeContent] := by
  rcases cb <;> rcases dt <;> rcases dm <;> rcases dc <;> decide

theorem uploadFileM_events_of_none (cb : Bool) (dt dm dc : StepResult)
    (h : (uploadFileM cb dt dm dc initialJob).2.2 = Exc.none) :
    (uploadFileM cb dt dm dc initialJob).1
      = [Event.deviceTransfer, Event.writeMeta, Event.writeContent] := by
  rcases cb <;> rcases dt <;> rcases dm <;> rcases dc <;>
    first | rfl | exact absurd h (by decide)

theorem uploadFileM_error_none (cb : Bool) (dt dm dc : StepResult) :
    (uploadFileM cb dt dm dc initialJob).2.1.error = none := by
  rcases cb <;> rcases dt <;> rcases dm <;> rcases dc <;> rfl

theorem uploadFileM_status_ne (cb : Bool) (dt dm dc : StepResult) :
    (uploadFileM cb dt dm dc initialJob).2.1.status ≠ "error" := by
  rcases cb <;> rcases dt <;> rcases dm <;> rcases dc <;> decide

theorem phaseEvents_probe : phaseEvents [Event.probe] = [Event.probe] := rfl

theorem phaseEvents_restart : phaseEvents [Event.restart] = [Event.restart] := rfl

theorem phaseEvents_mblock (b : Bool) :
    phaseEvents (if b then
        [Event.mirrorTransfer, Event.mirrorWriteMeta, Event.mirrorWriteContent]
      else [])
      = (if b then
          [Event.mirrorTransfer, Event.mirrorWriteMeta, Event.mirrorWriteContent]
        else []) := by
  cases b <;> rfl

/-! ## Claim C5: strict sequential phase order -/

/-- **C5** (confirmed).  For every upload run the phase operations happen
strictly sequentially in the canonical order — device connectivity probe
first; then (when a mirror is configured) mirror transfer, then the two
mirror metadata writes; then device transfer; then the device metadata
writes (index-entry descriptor, then content descriptor); then service
restart — in the sense that every run's performed phase operations are a
prefix of this order.  Moreover, if the device probe fails, the run
performs nothing beyond the probe (no mirror or device writes, no cleanup)
and terminates with the connection-failed outcome. -/
theorem upload_phases_sequential (env : Env) :
    phaseEvents (doUpload env).trace <+: canonicalOrder env.mirrorEnabled
      ∧ (env.probe = StepResult.err →
          (doUpload env).trace = [Event.probe]
            ∧ (doUpload env).outcome = Outcome.connectionFailed) := by
  constructor
  · cases hp : env.probe with
    | err =>
      simp only [doUpload, hp]
      rw [phaseEvents_probe, canonicalOrder]
      simp only [List.append_assoc]
      exact List.prefix_append _ _
    | cancelled =>
      simp only [doUpload, hp]
      rw [phaseEvents_append, phaseEvents_cleanups, List.append_nil,
        phaseEvents_probe, canonicalOrder]
      simp only [List.append_assoc]
      exact List.prefix_append _ _
    | ok =>
      simp only [doUpload, hp]
      cases hm : (mirrorResult env).2 with
      | error =>
        simp only [hm]
        rw [phaseEvents_append, phaseEvents_append, phaseEvents_cleanups,
          List.append_nil, phaseEvents_probe, canonicalOrder]
        simp only [List.append_assoc, List.prefix_append_right_inj]
        exact (mirrorResult_events_front env).trans (List.prefix_append _ _)
      | cancelled =>
        simp only [hm]
        rw [phaseEvents_append, phaseEvents_append, phaseEvents_cleanups,
          List.append_nil, phaseEvents_probe, canonicalOrder]
        simp only [List.append_assoc, List.prefix_append_right_inj]
        exact (mirrorResult_events_front env).trans (List.prefix_append _ _)
      | none =>
        simp only [hm]
        cases hu : (uploadFileM env.cbThrows env.deviceTransfer env.deviceMeta
            env.deviceContent initialJob).2.2 with
        | error =>
          simp only [hu]
          rw [phaseEvents_append, phaseEvents_append, phaseEvents_append,
            phaseEvents_cleanups, List.append_nil, phaseEvents_probe,
            mirrorResult_events_of_none env hm, phaseEvents_mblock, canonicalOrder]
          simp only [List.append_assoc, List.prefix_append_right_inj]
          exact (uploadFileM_events_front _ _ _ _).trans (by decide)
        | cancelled =>
          simp only [hu]
          rw [phaseEvents_append, phaseEvents_append, phaseEvents_append,
            phaseEvents_cleanups, List.append_nil, phaseEvents_probe,
            mirrorResult_events_of_none env hm, phaseEvents_mblock, canonicalOrder]
          simp only [List.append_assoc, List.prefix_append_right_inj]
          exact (uploadFileM_events_front _ _ _ _).trans (by decide)
        | none =>
          cases hr : env.restart with
          | err =>
            simp only [hu]
            rw [phaseEvents_append, phaseEvents_append, phaseEvents_append,
              phaseEvents_append, phaseEvents_cleanups, List.append_nil,
              phaseEvents_probe, phaseEvents_restart,
              mirrorResult_events_of_none env hm, phaseEvents_mblock,
              uploadFileM_events_of_none _ _ _ _ hu, canonicalOrder]
            simp only [List.append_assoc]
            exact List.prefix_rfl
          | cancelled =>
            simp only [hu]
            rw [phaseEvents_append, phaseEvents_append, phaseEvents_append,
              phaseEvents_append, phaseEvents_cleanups, List.append_nil,
              phaseEvents_probe, phaseEvents_restart,
              mirrorResult_events_of_none env hm, phaseEvents_mblock,
              uploadFileM_events_of_none _ _ _ _ hu, canonicalOrder]
            simp only [List.append_assoc]
            exact List.prefix_rfl
          | ok =>
            simp only [hu]
            rw [phaseEvents_append, phaseEvents_append, phaseEvents_append,
              phaseEvents_probe, phaseEvents_restart,
              mirrorResult_events_of_none env hm, phaseEvents_mblock,
              uploadFileM_events_of_none _ _ _ _ hu, canonicalOrder]
            simp only [List.append_assoc]
            exact List.prefix_rfl
  · intro h
    simp [doUpload, h]

/-- Witness for C5's probe-failure clause at a concrete run. -/
theorem upload_phases_sequential_witness :
    (doUpload ⟨.err, true, .ok, .ok, .ok, false, .ok, .ok, .ok, .ok⟩).trace = [Event.probe]
      ∧ (doUpload ⟨.err, true, .ok, .ok, .ok, false, .ok, .ok, .ok, .ok⟩).outcome
          = Outcome.connectionFailed :=
  (upload_phases_sequential ⟨.err, true, .ok, .ok, .ok, false, .ok, .ok, .ok, .ok⟩).2 rfl

/-! ## Claim C1: restart failure and cleanup -/

/-- **C1** counterexample.  In the run where the probe, the whole mirror
leg, the device transfer and both metadata writes succeed and only the
service restart fails, the orchestrator *does* invoke both mirror cleanup
and device cleanup: the restart failure is caught by the same generic
handler as every other failure (app.py lines 420-424), so the claim's
"no cleanup on restart failure" is false on the code. -/
theorem restart_failure_cex :
    (doUpload ⟨.ok, true, .ok, .ok, .ok, false, .ok, .ok, .ok, .err⟩).outcome
        = Outcome.failed
      ∧ Event.mirrorCleanup
          ∈ (doUpload ⟨.ok, true, .ok, .ok, .ok, false, .ok, .ok, .ok, .err⟩).trace
      ∧ Event.deviceCleanup
          ∈ (doUpload ⟨.ok, true, .ok, .ok, .ok, false, .ok, .ok, .ok, .err⟩).trace := by
  decide

/-- **C1** (amended, corrected claim).  If the service-restart step fails
after the device transfer and both metadata writes have succeeded, the
orchestrator *does* roll back: the restart failure lands in the same
exception handler as any other failure, which invokes mirror cleanup
exactly once when the mirror leg ran (never otherwise) and device cleanup
exactly once, removing the transferred file and both sidecar files; the
run ends failed. -/
theorem restart_failure_rolls_back (b : Bool) :
    (doUpload ⟨.ok, b, .ok, .ok, .ok, false, .ok, .ok, .ok, .err⟩).outcome = Outcome.failed
      ∧ (doUpload ⟨.ok, b, .ok, .ok, .ok, false, .ok, .ok, .ok, .err⟩).trace.count
          Event.mirrorCleanup = (if b then 1 else 0)
      ∧ (doUpload ⟨.ok, b, .ok, .ok, .ok, false, .ok, .ok, .ok, .err⟩).trace.count
          Event.deviceCleanup = 1 := by
  rcases b <;> decide

/-! ## Claim C2: the job's error field -/

/-- **C2** counterexample.  A failing run (device transfer exits non-zero,
no mirror) ends with the job record's error field still `none` and its
status still `"uploading"`, not the failed value `"error"`: the claim that
every failing run sets `lastError` and the failed status is false on the
code. -/
theorem job_error_field_cex :
    (doUpload ⟨.ok, false, .ok, .ok, .ok, false, .err, .ok, .ok, .ok⟩).outcome
        = Outcome.failed
      ∧ (doUpload ⟨.ok, false, .ok, .ok, .ok, false, .err, .ok, .ok, .ok⟩).job.error = none
      ∧ (doUpload ⟨.ok, false, .ok, .ok, .ok, false, .err, .ok, .ok, .ok⟩).job.status
          = "uploading" := by
  decide

/-- **C2** (amended, corrected claim).  No run of the orchestrator ever
sets the job's error field or the `"error"` status: failures are reported
to the UI observer only, leaving `job.error = None` and `job.status` at its
last in-progress value — so "`lastError` is set exactly when `status`
becomes failed" holds only vacuously, with both sides always false. -/
theorem job_error_never_set (env : Env) :
    (doUpload env).job.error = none ∧ (doUpload env).job.status ≠ "error" := by
  have hinit : initialJob.error = none ∧ initialJob.status ≠ "error" := by
    refine ⟨rfl, by decide⟩
  have hjob := uploadFileM_error_none env.cbThrows env.deviceTransfer env.deviceMeta
    env.deviceContent
  have hst := uploadFileM_status_ne env.cbThrows env.deviceTransfer env.deviceMeta
    env.deviceContent
  cases hp : env.probe with
  | err =>
    simp only [doUpload, hp]
    exact hinit
  | cancelled =>
    simp only [doUpload, hp]
    exact hinit
  | ok =>
    simp only [doUpload, hp]
    cases hm : (mirrorResult env).2 with
    | error =>
      simp only [hm]
      exact hinit
    | cancelled =>
      simp only [hm]
      exact hinit
    | none =>
      simp only [hm]
      cases hu : (uploadFileM env.cbThrows env.deviceTransfer env.deviceMeta
          env.deviceContent initialJob).2.2 with
      | error =>
        simp only [hu]
        exact ⟨hjob, hst⟩
      | cancelled =>
        simp only [hu]
        exact ⟨hjob, hst⟩
      | none =>
        cases hr : env.restart with
        | err =>
          simp only [hu]
          exact ⟨hjob, hst⟩
        | cancelled =>
          simp only [hu]
          exact ⟨hjob, hst⟩
        | ok =>
          simp only [hu]
          exact ⟨hjob, hst⟩

/-! ## Claim C3: callback exceptions -/

/-- **C3** counterexample.  With every external step succeeding, a progress
callback that raises changes the run's outcome: the exception propagates
from the unguarded `progress(job)` call in `upload_file`, the generic
failure handler runs cleanup, and the run ends failed without the device
transfer ever starting — while the identical run with a non-throwing
callback succeeds.  Callback exceptions are not guarded/ignored. -/
theorem callback_exception_cex :
    (doUpload ⟨.ok, false, .ok, .ok, .ok, true, .ok, .ok, .ok, .ok⟩).outcome = Outcome.failed
      ∧ Event.deviceTransfer
          ∉ (doUpload ⟨.ok, false, .ok, .ok, .ok, true, .ok, .ok, .ok, .ok⟩).trace
      ∧ Event.deviceCleanup
          ∈ (doUpload ⟨.ok, false, .ok, .ok, .ok, true, .ok, .ok, .ok, .ok⟩).trace
      ∧ (doUpload ⟨.ok, false, .ok, .ok, .ok, false, .ok, .ok, .ok, .ok⟩).outcome
          = Outcome.success := by
  decide

/-- **C3** (amended, corrected claim).  A caller-supplied progress callback
that raises is not guarded: the exception propagates out of `upload_file`
into the orchestrator's generic failure handler, which runs mirror cleanup
(exactly once, when the mirror leg completed) and device cleanup (exactly
once), and the run ends failed with the device transfer never attempted —
regardless of how the remaining external steps would have behaved. -/
theorem callback_exception_aborts (b : Bool) (dt dm dc r : StepResult) :
    (doUpload ⟨.ok, b, .ok, .ok, .ok, true, dt, dm, dc, r⟩).outcome = Outcome.failed
      ∧ Event.deviceTransfer ∉ (doUpload ⟨.ok, b, .ok, .ok, .ok, true, dt, dm, dc, r⟩).trace
      ∧ (doUpload ⟨.ok, b, .ok, .ok, .ok, true, dt, dm, dc, r⟩).trace.count
          Event.deviceCleanup = 1
      ∧ (doUpload ⟨.ok, b, .ok, .ok, .ok, true, dt, dm, dc, r⟩).trace.count
          Event.mirrorCleanup = (if b then 1 else 0) := by
  rcases b <;> rcases dt <;> rcases dm <;> rcases dc <;> rcases r <;> decide

/-! ## Claim C7: cancellation during the device transfer -/

/-- **C7** (confirmed).  If cancellation is signalled while the device
transfer is in flight, the child transfer process is killed and awaited
(the `killChild` action, `proc.kill(); await proc.wait()`), the run ends in
the cancelled outcome, and mirror cleanup is invoked exactly once when the
mirror leg had completed (never otherwise) and device cleanup exactly
once — regardless of how the never-reached later steps would have
behaved. -/
theorem cancellation_mid_device_transfer (b : Bool) (dm dc r : StepResult) :
    (doUpload ⟨.ok, b, .ok, .ok, .ok, false, .cancelled, dm, dc, r⟩).outcome
        = Outcome.cancelled
      ∧ (doUpload ⟨.ok, b, .ok, .ok, .ok, false, .cancelled, dm, dc, r⟩).trace.count
          Event.killChild = 1
      ∧ (doUpload ⟨.ok, b, .ok, .ok, .ok, false, .cancelled, dm, dc, r⟩).trace.count
          Event.mirrorCleanup = (if b then 1 else 0)
      ∧ (doUpload ⟨.ok, b, .ok, .ok, .ok, false, .cancelled, dm, dc, r⟩).trace.count
          Event.deviceCleanup = 1 := by
  rcases b <;> rcases dm <;> rcases dc <;> rcases r <;> decide

end RmUpload
